import Mathlib

/-
  Verification of the StationIapetus AI core against its design document.

  Shallow embedding of the relevant source functions:
  - `src/game/src/bot/behavior/threat.rs` (ThreatenTarget, NeedsThreatenTarget)
  - `src/game/src/bot/state_machine.rs`   (StateMachine::new / apply / fetch_layer)
  - `src/game/src/bot/mod.rs`             (Bot::set_target / on_actor_removed)
  - `src/game/src/utils/mod.rs`           (BodyImpactHandler)
  - `src/game/src/level/turret.rs`        (Turret::select_target / shooting)

  Machine scalars (`f32`) are modelled as `ℚ` where the source only adds,
  multiplies and compares, and as `ℝ` where square roots and trigonometric
  functions appear.  Generation-checked pool handles are modelled as `Nat`,
  with `0` playing the role of `Handle::NONE` (which never resolves).
-/

set_option autoImplicit false

namespace StationIapetus

/-- `Status` of a behavior tree node (fyrox `utils::behavior::Status`). -/
inductive Status where
  | success
  | failure
  | running
deriving DecidableEq, Repr

/-! ## Animation state machine (`src/game/src/bot/state_machine.rs`)

The ABSM node, its machine, layers and states are owned by the (external)
scene graph; we model exactly the interface the bot code consumes:
a machine is a list of named layers, each layer holds its named states,
its currently active state and the animations attached to each state. -/

/-- A fyrox `Parameter` pushed into the blend graph (`Rule` or `Index`). -/
inductive Parameter where
  | rule (b : Bool)
  | index (n : Nat)
deriving DecidableEq, Repr

/-- One layer of the animation blending machine, at the interface consumed by
the bot code: its name, its states as `(state handle, state name)` pairs, the
handle of the currently active state (`MachineLayer::active_state`) and the
animations of each state (`MachineLayer::animations_of_state`). -/
structure MachineLayer where
  name : String
  states : List (Nat × String)
  activeState : Nat
  animationsOf : Nat → List Nat

/-- The animation blending machine of an ABSM node: its layers and its named
parameters. -/
structure Machine where
  layers : List MachineLayer
  parameters : List (String × Parameter)

/-- Scene graph at the interface used by `state_machine.rs`: resolving a node
handle to an `AnimationBlendingStateMachine`'s machine
(`Graph::try_get_of_type::<AnimationBlendingStateMachine>`). -/
structure SGraph where
  absmOf : Nat → Option Machine

/-- `graph.try_get_of_type::<AnimationBlendingStateMachine>(handle)`:
`Handle::NONE` (modelled as `0`) never resolves. -/
def tryGetAbsm (g : SGraph) (handle : Nat) : Option Machine :=
  if handle = 0 then none else g.absmOf handle

/-- Write back a modified machine into the graph (models the mutation done
through `machine_mut().get_value_mut_silent()`). -/
def setAbsm (g : SGraph) (handle : Nat) (m : Machine) : SGraph :=
  ⟨fun h => if h = handle then some m else g.absmOf h⟩

/-- `MachineLayer::find_state_by_name_ref(name)`: first state with the given
name, returning its handle (the `.0` of the pair in the source). -/
def findStateByNameRef (l : MachineLayer) (stateName : String) : Option Nat :=
  (l.states.find? (fun s => s.2 == stateName)).map (·.1)

/-- `Machine::find_layer_by_name_ref(name)`: first layer with the given name
together with its index. -/
def findLayerByNameRef (m : Machine) (layerName : String) : Option (Nat × MachineLayer) :=
  m.layers.enum.find? (fun p => p.2.name == layerName)

/-- `Machine::set_parameter(name, value)`: insert or overwrite the named
parameter. -/
def Machine.setParameter (m : Machine) (paramName : String) (v : Parameter) : Machine :=
  { m with
    parameters :=
      if (m.parameters.find? (fun p => p.1 == paramName)).isSome then
        m.parameters.map (fun p => if p.1 == paramName then (p.1, v) else p)
      else
        m.parameters ++ [(paramName, v)] }

/-- `StateMachineInput` (`state_machine.rs`, lines 10-19). -/
structure StateMachineInput where
  walk : Bool
  scream : Bool
  dead : Bool
  movement_speed_factor : ℚ
  attack : Bool
  attack_animation_index : Nat
  aim : Bool
  badly_damaged : Bool

/-- `StateMachine` (`state_machine.rs`, lines 21-29). -/
structure StateMachine where
  absm : Nat
  aim_state : Nat
  attack_state : Nat
  threaten_state : Nat
  dead_state : Nat
  attack_animations : List Nat
deriving DecidableEq

/-- `StateMachine::LOWER_BODY_LAYER_INDEX`. -/
def LOWER_BODY_LAYER_INDEX : Nat := 0

/-- `StateMachine::UPPER_BODY_LAYER_INDEX`. -/
def UPPER_BODY_LAYER_INDEX : Nat := 1

/-- `StateMachine::new` (`state_machine.rs`, lines 38-57).  Every failed
lookup propagates through `?` as `None`; the `assert_eq!` on the layer index
panics in the source, which we also model as failed construction. -/
def StateMachine.new (machine_handle : Nat) (graph : SGraph) : Option StateMachine := do
  let machine ← tryGetAbsm graph machine_handle
  let (upper_body_layer_index, upper_body) ← findLayerByNameRef machine "UpperBody"
  if upper_body_layer_index ≠ UPPER_BODY_LAYER_INDEX then none else
  let attack_state ← findStateByNameRef upper_body "MeleeAttack"
  let aim_state ← findStateByNameRef upper_body "Aim"
  let threaten_state ← findStateByNameRef upper_body "Threaten"
  let dead_state ← findStateByNameRef upper_body "Dead"
  some
    { absm := machine_handle
      aim_state := aim_state
      attack_state := attack_state
      threaten_state := threaten_state
      dead_state := dead_state
      attack_animations := upper_body.animationsOf attack_state }

/-- `StateMachine::apply` (`state_machine.rs`, lines 59-76).  The source
calls `.unwrap()` on the resolved ABSM node and panics when the handle is
stale or wrong-typed; the panic is modelled as `none`, a successful
application as `some` of the updated graph. -/
def StateMachine.apply (sm : StateMachine) (g : SGraph) (input : StateMachineInput) :
    Option SGraph :=
  match tryGetAbsm g sm.absm with
  | none => none
  | some m =>
    some (setAbsm g sm.absm
      (((((((m.setParameter "Attack" (.rule input.attack)).setParameter
        "AttackAnimationIndex" (.index input.attack_animation_index)).setParameter
        "Walk" (.rule input.walk)).setParameter
        "Threaten" (.rule input.scream)).setParameter
        "Aim" (.rule input.aim)).setParameter
        "Dead" (.rule input.dead)).setParameter
        "WasHit" (.rule input.badly_damaged)))

/-- `StateMachine::fetch_layer` (`state_machine.rs`, lines 78-86): returns
`None` both for an unresolved ABSM handle and for an out-of-range layer
index. -/
def StateMachine.fetchLayer (sm : StateMachine) (g : SGraph) (idx : Nat) :
    Option MachineLayer :=
  (tryGetAbsm g sm.absm).bind (fun m => m.layers.get? idx)

/-- `StateMachine::lower_body_layer`. -/
def StateMachine.lowerBodyLayer (sm : StateMachine) (g : SGraph) : Option MachineLayer :=
  sm.fetchLayer g LOWER_BODY_LAYER_INDEX

/-- `StateMachine::upper_body_layer`. -/
def StateMachine.upperBodyLayer (sm : StateMachine) (g : SGraph) : Option MachineLayer :=
  sm.fetchLayer g UPPER_BODY_LAYER_INDEX

/-! ## Threaten behavior nodes (`src/game/src/bot/behavior/threat.rs`) -/

/-- The slice of `BehaviorContext` read or written by the threaten nodes:
the bot's state machine and the scene graph (used to fetch the upper body
layer), the persisted `threaten_timeout` timer, the `is_screaming` output
flag, and a flag recording the `character.stand_still` call. -/
structure ThreatenCtx where
  state_machine : StateMachine
  graph : SGraph
  threaten_timeout : ℚ
  is_screaming : Bool
  stood_still : Bool

/-- `ThreatenTarget` behavior node (`threat.rs`, lines 10-13). -/
structure ThreatenTarget where
  in_progress : Bool
deriving DecidableEq

/-- `ThreatenTarget::tick` (`threat.rs`, lines 18-35).  `rng2060` is the
value sampled by `rand::thread_rng().gen_range(20.0..60.0)`; the generator's
contract (`20 ≤ rng2060 < 60`) is a hypothesis of the theorems below. -/
def ThreatenTarget.tick (self : ThreatenTarget) (ctx : ThreatenCtx) (rng2060 : ℚ) :
    ThreatenTarget × ThreatenCtx × Status :=
  match ctx.state_machine.upperBodyLayer ctx.graph with
  | some upper_body_layer =>
    if upper_body_layer.activeState = ctx.state_machine.threaten_state then
      ({ in_progress := true }, { ctx with stood_still := true }, .running)
    else if self.in_progress then
      ({ in_progress := false }, { ctx with threaten_timeout := rng2060 }, .success)
    else
      (self, { ctx with is_screaming := true }, .running)
  | none => (self, ctx, .failure)

/-- `NeedsThreatenTarget::tick` (`threat.rs`, lines 44-51). -/
def needsThreatenTargetTick (ctx : ThreatenCtx) : Status :=
  if ctx.threaten_timeout ≤ 0 then .success else .failure

/-! ## Bot target bookkeeping (`src/game/src/bot/mod.rs`) -/

/-- `Target` (`bot/mod.rs`): a world position plus the handle of the targeted
entity. -/
structure Target where
  position : ℚ × ℚ × ℚ
  handle : Nat
deriving DecidableEq

/-- The slice of `Bot` state the target bookkeeping touches. -/
structure Bot where
  target : Option Target
deriving DecidableEq

/-- `Bot::set_target` (`bot/mod.rs`, lines 258-260). -/
def Bot.setTarget (b : Bot) (handle : Nat) (position : ℚ × ℚ × ℚ) : Bot :=
  { b with target := some { position := position, handle := handle } }

/-- `Bot::on_actor_removed` (`bot/mod.rs`, lines 268-274). -/
def Bot.onActorRemoved (b : Bot) (handle : Nat) : Bot :=
  match b.target with
  | some target => if target.handle = handle then { b with target := none } else b
  | none => b

/-! ## Geometry primitives

The impact and turret code relies on `nalgebra` operations on `f32`
vectors, quaternions and homogeneous matrices; these are modelled over `ℝ`.
-/

/-- A 3d vector (`nalgebra::Vector3<f32>`). -/
structure Vec3 where
  x : ℝ
  y : ℝ
  z : ℝ

/-- Componentwise difference. -/
noncomputable def Vec3.sub (a b : Vec3) : Vec3 :=
  ⟨a.x - b.x, a.y - b.y, a.z - b.z⟩

/-- Cross product. -/
noncomputable def Vec3.cross (a b : Vec3) : Vec3 :=
  ⟨a.y * b.z - a.z * b.y, a.z * b.x - a.x * b.z, a.x * b.y - a.y * b.x⟩

/-- Scalar multiple. -/
noncomputable def Vec3.smul (c : ℝ) (v : Vec3) : Vec3 :=
  ⟨c * v.x, c * v.y, c * v.z⟩

/-- Squared Euclidean norm. -/
noncomputable def Vec3.normSq (v : Vec3) : ℝ :=
  v.x ^ 2 + v.y ^ 2 + v.z ^ 2

/-- Euclidean norm. -/
noncomputable def Vec3.norm (v : Vec3) : ℝ :=
  Real.sqrt v.normSq

/-- `nalgebra`'s `try_normalize(min_norm)`: `None` when the norm does not
exceed `min_norm`, otherwise the vector divided by its norm. -/
noncomputable def Vec3.tryNormalize (v : Vec3) (minNorm : ℝ) : Option Vec3 :=
  if v.norm ≤ minNorm then none else some (Vec3.smul v.norm⁻¹ v)

/-- `nalgebra`'s `Unit::new_normalize`: divide by the norm. -/
noncomputable def Vec3.newNormalize (v : Vec3) : Vec3 :=
  Vec3.smul v.norm⁻¹ v

/-- `v.metric_distance(&w)`: the Euclidean distance. -/
noncomputable def metricDistance (a b : Vec3) : ℝ :=
  (a.sub b).norm

/-- `f32::EPSILON` = 2⁻²³. -/
noncomputable def f32Epsilon : ℝ :=
  1 / 2 ^ 23

/-- `f32::MAX` = (2 − 2⁻²³)·2¹²⁷ = 2¹²⁸ − 2¹⁰⁴. -/
noncomputable def f32Max : ℝ :=
  2 ^ 128 - 2 ^ 104

/-- `f32::to_radians`. -/
noncomputable def toRadians (deg : ℝ) : ℝ :=
  deg * Real.pi / 180

/-- A quaternion (`nalgebra::UnitQuaternion<f32>` is a quaternion kept at
unit norm by its smart constructors). -/
structure Quat where
  w : ℝ
  x : ℝ
  y : ℝ
  z : ℝ

/-- `UnitQuaternion::default()`: the identity rotation. -/
noncomputable def Quat.one : Quat :=
  ⟨1, 0, 0, 0⟩

/-- Hamilton product (the `*` of two quaternions). -/
noncomputable def Quat.mul (a b : Quat) : Quat :=
  ⟨a.w * b.w - a.x * b.x - a.y * b.y - a.z * b.z,
   a.w * b.x + a.x * b.w + a.y * b.z - a.z * b.y,
   a.w * b.y - a.x * b.z + a.y * b.w + a.z * b.x,
   a.w * b.z + a.x * b.y - a.y * b.x + a.z * b.w⟩

/-- Squared norm of a quaternion. -/
noncomputable def Quat.normSq (q : Quat) : ℝ :=
  q.w ^ 2 + q.x ^ 2 + q.y ^ 2 + q.z ^ 2

/-- Norm of a quaternion. -/
noncomputable def Quat.norm (q : Quat) : ℝ :=
  Real.sqrt q.normSq

/-- Scalar multiple of a quaternion. -/
noncomputable def Quat.smul (c : ℝ) (q : Quat) : Quat :=
  ⟨c * q.w, c * q.x, c * q.y, c * q.z⟩

/-- Division by the norm (`normalize`). -/
noncomputable def Quat.normalize (q : Quat) : Quat :=
  Quat.smul q.norm⁻¹ q

/-- Componentwise linear interpolation `self*(1-t) + other*t`. -/
noncomputable def Quat.lerp (a b : Quat) (t : ℝ) : Quat :=
  ⟨a.w * (1 - t) + b.w * t, a.x * (1 - t) + b.x * t,
   a.y * (1 - t) + b.y * t, a.z * (1 - t) + b.z * t⟩

/-- `UnitQuaternion::nlerp`: linear interpolation renormalized. -/
noncomputable def Quat.nlerp (a b : Quat) (t : ℝ) : Quat :=
  (a.lerp b t).normalize

/-- `UnitQuaternion::from_axis_angle(&Unit::new_normalize(axis), angle)`:
half-angle construction about the normalized axis. -/
noncomputable def Quat.fromAxisAngle (axis : Vec3) (angle : ℝ) : Quat :=
  let u := axis.newNormalize
  ⟨Real.cos (angle / 2), Real.sin (angle / 2) * u.x,
   Real.sin (angle / 2) * u.y, Real.sin (angle / 2) * u.z⟩

/-- A homogeneous transform (`nalgebra::Matrix4<f32>`). -/
abbrev Mat4 := Matrix (Fin 4) (Fin 4) ℝ

/-- `try_inverse().unwrap_or_default()`.  Mathlib's matrix inverse is the
zero matrix exactly when the matrix is singular, which coincides with
`nalgebra`'s `None`-case collapsed to `Matrix4::default()` (all zeros). -/
noncomputable def tryInverseOrDefault (m : Mat4) : Mat4 :=
  m⁻¹

/-- `Matrix4::transform_point`: apply the homogeneous transform and divide
by the resulting `w` coordinate when it is nonzero. -/
noncomputable def transformPoint (m : Mat4) (p : Vec3) : Vec3 :=
  let tx := m 0 0 * p.x + m 0 1 * p.y + m 0 2 * p.z + m 0 3
  let ty := m 1 0 * p.x + m 1 1 * p.y + m 1 2 * p.z + m 1 3
  let tz := m 2 0 * p.x + m 2 1 * p.y + m 2 2 * p.z + m 2 3
  let n := m 3 0 * p.x + m 3 1 * p.y + m 3 2 * p.z + m 3 3
  if n = 0 then ⟨tx, ty, tz⟩ else ⟨tx / n, ty / n, tz / n⟩

/-- `Matrix4::transform_vector`: apply only the linear part. -/
noncomputable def transformVector (m : Mat4) (v : Vec3) : Vec3 :=
  ⟨m 0 0 * v.x + m 0 1 * v.y + m 0 2 * v.z,
   m 1 0 * v.x + m 1 1 * v.y + m 1 2 * v.z,
   m 2 0 * v.x + m 2 1 * v.y + m 2 2 * v.z⟩

/-! ## Body impact handler (`src/game/src/utils/mod.rs`, lines 28-92) -/

/-- `ImpactEntry`: blend progress `k` and the stored source rotation. -/
structure ImpactEntry where
  k : ℚ
  source : Quat

/-- The `additional_rotations` hash map, modelled as an association list
with (provably maintained) pairwise-distinct keys. -/
abbrev ImpactMap := List (Nat × ImpactEntry)

/-- Scene graph at the interface used by `BodyImpactHandler`: resolving a
bone handle to its node's global transform (`Graph::try_get` +
`Node::global_transform`), and each node's local rotation. -/
structure IScene where
  tryGet : Nat → Option Mat4
  rotation : Nat → Quat

/-- `HashMap::get(&handle)` on the impact map. -/
def lookupEntry (m : ImpactMap) (h : Nat) : Option ImpactEntry :=
  (m.find? (fun be => be.1 == h)).map (·.2)

/-- The keys of the impact map. -/
def impactKeys (m : ImpactMap) : List Nat :=
  m.map Prod.fst

/-- `self.additional_rotations.entry(handle).and_modify(..).or_insert(..)`
(`utils/mod.rs`, lines 62-71): overwrite the existing entry's source and
reset its `k` to `0`, or insert a fresh entry with `k = 0`. -/
def entryAndModifyOrInsert (m : ImpactMap) (h : Nat) (rot : Quat) : ImpactMap :=
  if (lookupEntry m h).isSome then
    m.map (fun be => if be.1 == h then (be.1, ⟨0, rot⟩) else be)
  else
    m ++ [(h, ⟨0, rot⟩)]

/-- `BodyImpactHandler::handle_impact` (`utils/mod.rs`, lines 40-76).
An unresolvable bone handle only logs a warning; a degenerate
(non-normalizable) rotation axis skips the insertion. -/
noncomputable def handleImpact (m : ImpactMap) (scene : IScene) (handle : Nat)
    (impact_point direction : Vec3) : ImpactMap :=
  match scene.tryGet handle with
  | some nodeGlobalTransform =>
    let global_transform := tryInverseOrDefault nodeGlobalTransform
    let local_impact_point := transformPoint global_transform impact_point
    let local_direction := transformVector global_transform direction
    match (local_impact_point.cross local_direction).tryNormalize f32Epsilon with
    | some axis =>
      entryAndModifyOrInsert m handle (Quat.fromAxisAngle axis (toRadians 24))
    | none => m
  | none => m

/-- Overwrite one node's local rotation
(`local_transform_mut().set_rotation`). -/
def setRotation (sc : IScene) (h : Nat) (q : Quat) : IScene :=
  { sc with rotation := fun h2 => if h2 = h then q else sc.rotation h2 }

/-- The body of the `for` loop in `update_and_apply`: interpolate the
stored rotation toward identity with factor `k`, advance `k` by `dt`, and
multiply the interpolated rotation onto the bone's current rotation. -/
noncomputable def updateStep (dt : ℚ) (acc : ImpactMap × IScene) (be : Nat × ImpactEntry) :
    ImpactMap × IScene :=
  let additional_rotation := Quat.nlerp be.2.source Quat.one (be.2.k : ℝ)
  let new_rotation := Quat.mul (acc.2.rotation be.1) additional_rotation
  (acc.1 ++ [(be.1, ⟨be.2.k + dt, be.2.source⟩)], setRotation acc.2 be.1 new_rotation)

/-- `BodyImpactHandler::update_and_apply` (`utils/mod.rs`, lines 78-87):
process every entry, then retain only entries with `k < 1`. -/
noncomputable def updateAndApply (m : ImpactMap) (dt : ℚ) (sc : IScene) :
    ImpactMap × IScene :=
  let p := m.foldl (updateStep dt) ([], sc)
  (p.1.filter (fun be => be.2.k < 1), p.2)

/-- Repeated calls to `update_and_apply` with the listed time deltas. -/
noncomputable def runUpdates (m : ImpactMap) (sc : IScene) (dts : List ℚ) :
    ImpactMap × IScene :=
  dts.foldl (fun acc dt => updateAndApply acc.1 dt acc.2) (m, sc)

/-! ## Turret targeting (`src/game/src/level/turret.rs`) -/

namespace TurretSelect

/-- `Hostility` (`turret.rs`, lines 80-84). -/
inductive Hostility where
  | player
  | monsters
  | all
deriving DecidableEq, Repr

/-- The collider shapes distinguished by `select_target`: only
"capsule vs. anything else" matters (`matches!(shape, Capsule(_))`). -/
inductive ColliderShape where
  | capsule
  | ball
  | cuboid
  | trimesh
deriving DecidableEq, Repr

/-- Whether a shape is a capsule (character hitbox). -/
def ColliderShape.isCapsule : ColliderShape → Bool
  | .capsule => true
  | _ => false

/-- The data `select_target` reads about a candidate through
`try_get_character_ref`: `Character::is_dead`, `Character::position` and
whether the node carries the `Player` script. -/
structure TCharacter where
  dead : Bool
  position : Vec3
  player : Bool

/-- One ray-cast intersection (`physics.cast_ray` result entry). -/
structure RayHit where
  collider : Nat

/-- Scene at the interface consumed by `select_target` and the shooting
code: character resolution, collider shape resolution
(`graph[h].cast::<Collider>()` + `shape()`), the sorted ray-cast query from
one point to another, and node global positions. -/
structure TScene where
  characters : Nat → Option TCharacter
  colliderShapeOf : Nat → Option ColliderShape
  castRay : Vec3 → Vec3 → List RayHit
  globalPosition : Nat → Vec3

/-- `try_get_character_ref(handle, graph)`: `Handle::NONE` (0) never
resolves. -/
def tryGetCharacterRef (sc : TScene) (h : Nat) : Option TCharacter :=
  if h = 0 then none else sc.characters h

/-- The slice of `Turret` state used by `select_target`
(`turret.rs`, lines 97-126). -/
structure Turret where
  model : Nat
  collider : Nat
  hostility : Hostility
  target : Nat
  frustum : Vec3 → Bool

/-- One iteration of the inner `hit_loop` test (`turret.rs`, lines
400-412): a hit blocks the candidate when it is not the turret's own
collider and resolves to a collider whose shape is not a capsule. -/
def hitBlocks (t : Turret) (sc : TScene) (hit : RayHit) : Bool :=
  hit.collider ≠ t.collider &&
    (match sc.colliderShapeOf hit.collider with
     | some shape => !shape.isCapsule
     | none => false)

/-- The body of the `'target_loop'` (`turret.rs`, lines 364-419), folded
over the accumulator `(closest, closest_distance, target)`.  An occluded
candidate zeroes the `target` field and is skipped; a passing candidate
closer than the best so far replaces it. -/
noncomputable def scanStep (t : Turret) (sc : TScene) (self_position : Vec3)
    (acc : Nat × ℝ × Nat) (handle : Nat) : Nat × ℝ × Nat :=
  match tryGetCharacterRef sc handle with
  | none => acc
  | some actor =>
    if actor.dead then acc
    else if (t.hostility = .player ∧ actor.player = false) ∨
        (t.hostility = .monsters ∧ actor.player = true) then acc
    else if !t.frustum actor.position then acc
    else if (sc.castRay actor.position self_position).any (hitBlocks t sc) then
      (acc.1, acc.2.1, 0)
    else
      let distance := metricDistance actor.position self_position
      if distance < acc.2.1 then (handle, distance, acc.2.2) else acc

/-- The whole candidate scan: fold the loop body over the actor list,
starting from `closest = Handle::NONE` and `closest_distance = f32::MAX`. -/
noncomputable def scanClosest (t : Turret) (sc : TScene) (actors : List Nat) :
    Nat × ℝ × Nat :=
  actors.foldl (scanStep t sc (sc.globalPosition t.model)) (0, f32Max, t.target)

/-- `Turret::select_target` (`turret.rs`, lines 357-424).  When the current
target does not resolve to a character, or resolves to a living one
(`Option::is_none_or(|c| !c.is_dead(graph))`), the candidates are scanned
and `target` becomes the scan's `closest`; only a resolved dead target
short-circuits to clearing `target`. -/
noncomputable def selectTarget (t : Turret) (sc : TScene) (actors : List Nat) : Turret :=
  if (tryGetCharacterRef sc t.target).all (fun c => !c.dead) then
    { t with target := (scanClosest t sc actors).1 }
  else
    { t with target := 0 }

/-- The property checked by the filters of the `'target_loop'`: the handle
resolves to a living character, passes the hostility rule, its position is
inside the frustum, and no ray hit from it to the turret blocks it. -/
def Selectable (t : Turret) (sc : TScene) (self_position : Vec3) (handle : Nat) : Prop :=
  ∃ c, tryGetCharacterRef sc handle = some c ∧ c.dead = false ∧
    ¬((t.hostility = .player ∧ c.player = false) ∨
      (t.hostility = .monsters ∧ c.player = true)) ∧
    t.frustum c.position = true ∧
    (sc.castRay c.position self_position).any (hitBlocks t sc) = false

/-- The distance from a candidate's character position to a point
(`actor_position.metric_distance(&self_position)`); `f32Max` as an unused
sentinel for unresolvable handles. -/
noncomputable def candDist (sc : TScene) (self_position : Vec3) (handle : Nat) : ℝ :=
  match tryGetCharacterRef sc handle with
  | some c => metricDistance c.position self_position
  | none => f32Max

end TurretSelect

namespace TurretFire

/-- `ShootMode` (`turret.rs`, lines 49-54). -/
inductive ShootMode where
  | consecutive
  | simultaneously
deriving DecidableEq, Repr

/-- The slice of `Barrel` state touched by `Barrel::shoot`
(`turret.rs`, lines 277-285 and 289-326): the spring-back offset. -/
structure Barrel where
  handle : Nat
  shoot_point : Nat
  offset : ℚ × ℚ × ℚ
deriving DecidableEq

/-- `Barrel::shoot` side effect on the barrel itself: the positional
kick-back `offset = (-20, 0, 0)` (projectile spawn and sound playback are
recorded by the caller's fired-barrels list). -/
def Barrel.shoot (b : Barrel) : Barrel :=
  { b with offset := (-20, 0, 0) }

/-- The slice of `Turret` state driving the firing dispatch. -/
structure Turret where
  shoot_mode : ShootMode
  barrels : List Barrel
  barrel_index : Nat
  shoot_timer : ℚ
  shoot_interval : ℚ
deriving DecidableEq

/-- The firing dispatch of `Turret::on_update` (`turret.rs`, lines
204-233), which runs when the target handle resolves to a living
character: when the fire timer has elapsed, reset it to the shoot interval
and fire according to the shoot mode.  Returns the updated turret and the
indices of the barrels that shot this tick. -/
def fireStep (t : Turret) : Turret × List Nat :=
  if t.shoot_timer ≤ 0 then
    let t1 := { t with shoot_timer := t.shoot_interval }
    match t1.shoot_mode with
    | .consecutive =>
      match t1.barrels.get? t1.barrel_index with
      | some barrel =>
        let t2 := { t1 with barrels := t1.barrels.set t1.barrel_index barrel.shoot }
        let idx := t2.barrel_index + 1
        ({ t2 with barrel_index := if t2.barrels.length ≤ idx then 0 else idx },
          [t1.barrel_index])
      | none => (t1, [])
    | .simultaneously =>
      ({ t1 with barrels := t1.barrels.map Barrel.shoot }, List.range t1.barrels.length)
  else (t, [])

/-- The `if let Some(target) = try_get_character_ref(..)` gate around the
firing dispatch: with no resolved living target the turret only idles
(sweep aiming), firing nothing. -/
def onUpdateFire (t : Turret) (targetResolved : Bool) : Turret × List Nat :=
  if targetResolved then fireStep t else (t, [])

end TurretFire

/-- Invariant of the candidate-scan fold: either no candidate has been
chosen yet (`closest = Handle::NONE`, `closest_distance = f32::MAX`, and
every selectable handle seen so far sits at distance at least `f32::MAX`),
or the chosen candidate is a seen selectable one at the minimal distance
among the seen selectable handles. -/
def TurretSelect.ScanInv (t : TurretSelect.Turret) (sc : TurretSelect.TScene)
    (sp : Vec3) (seen : List Nat) (acc : Nat × ℝ × Nat) : Prop :=
  (acc.1 = 0 ∧ acc.2.1 = f32Max ∧
    ∀ h ∈ seen, TurretSelect.Selectable t sc sp h → f32Max ≤ TurretSelect.candDist sc sp h) ∨
  (acc.1 ∈ seen ∧ TurretSelect.Selectable t sc sp acc.1 ∧
    acc.2.1 = TurretSelect.candDist sc sp acc.1 ∧ acc.2.1 < f32Max ∧
    ∀ h ∈ seen, TurretSelect.Selectable t sc sp h → acc.2.1 ≤ TurretSelect.candDist sc sp h)

/-! ## Concrete instances used by witnesses and counterexamples -/

/-- A lower-body layer with no states. -/
def wLowerLayer : MachineLayer :=
  ⟨"LowerBody", [], 0, fun _ => []⟩

/-- An upper-body layer holding the four named states; its active state is
state `11` ("Aim"). -/
def wUpperLayer : MachineLayer :=
  ⟨"UpperBody", [(10, "MeleeAttack"), (11, "Aim"), (12, "Threaten"), (13, "Dead")], 11,
    fun _ => []⟩

/-- A machine with the two layers in canonical order. -/
def wMachine : Machine :=
  ⟨[wLowerLayer, wUpperLayer], []⟩

/-- A graph in which handle `3` resolves to `wMachine`. -/
def wGraph : SGraph :=
  ⟨fun h => if h = 3 then some wMachine else none⟩

/-- A graph in which no handle resolves to an ABSM node. -/
def wEmptyGraph : SGraph :=
  ⟨fun _ => none⟩

/-- The state machine produced by `StateMachine::new(3, wGraph)`. -/
def wStateMachine : StateMachine :=
  ⟨3, 11, 10, 12, 13, []⟩

/-- A behavior context for the threaten node over `wGraph`: the active
upper-body state (`11`) differs from the threaten state (`12`). -/
def wThreatenCtx : ThreatenCtx :=
  ⟨wStateMachine, wGraph, 0, false, false⟩

/-- A state machine whose ABSM handle (`3`) dangles in `wEmptyGraph`. -/
def wStaleSM : StateMachine :=
  ⟨3, 0, 0, 0, 0, []⟩

/-- A two-barrel turret in consecutive mode whose fire timer has elapsed
and whose current barrel index is `1`. -/
def wFireTurret : TurretFire.Turret :=
  ⟨.consecutive, [⟨1, 2, (0, 0, 0)⟩, ⟨3, 4, (0, 0, 0)⟩], 1, 0, 1/5⟩

/-- An impact scene: bone `5` resolves with the identity global transform,
and every node's local rotation starts as the identity. -/
noncomputable def impactSceneEx : IScene :=
  ⟨fun h => if h = 5 then some 1 else none, fun _ => Quat.one⟩

/-- The rotation `handle_impact` stores for an impact at local point
`(1,0,0)` with local direction `(0,1,0)` (axis `(0,0,1)`, 24 degrees). -/
noncomputable def impactSourceEx : Quat :=
  Quat.fromAxisAngle ⟨0, 0, 1⟩ (toRadians 24)

/-- A turret whose current target is handle `7`. -/
noncomputable def exAliveTurret : TurretSelect.Turret :=
  ⟨1, 2, .all, 7, fun _ => true⟩

/-- A scene in which handle `7` resolves to a living character. -/
noncomputable def exAliveScene : TurretSelect.TScene :=
  { characters := fun h => if h = 7 then some ⟨false, ⟨0, 0, 0⟩, true⟩ else none
    colliderShapeOf := fun _ => none
    castRay := fun _ _ => []
    globalPosition := fun _ => ⟨0, 0, 0⟩ }

/-- A scene in which handle `7` resolves to a dead character. -/
noncomputable def exDeadScene : TurretSelect.TScene :=
  { characters := fun h => if h = 7 then some ⟨true, ⟨0, 0, 0⟩, false⟩ else none
    colliderShapeOf := fun _ => none
    castRay := fun _ _ => []
    globalPosition := fun _ => ⟨0, 0, 0⟩ }

/-- A target-selection scene with three living candidates: handle `1` at
`(-5,0,0)` (outside the frustum below), handle `2` at `(2,0,0)` whose ray
to the turret hits a cuboid collider `20`, and handle `3` at `(3,0,0)`
whose ray only hits a capsule collider `21`. -/
noncomputable def exSelScene : TurretSelect.TScene :=
  { characters := fun h =>
      if h = 1 then some ⟨false, ⟨-5, 0, 0⟩, false⟩
      else if h = 2 then some ⟨false, ⟨2, 0, 0⟩, false⟩
      else if h = 3 then some ⟨false, ⟨3, 0, 0⟩, false⟩
      else none
    colliderShapeOf := fun h =>
      if h = 20 then some .cuboid else if h = 21 then some .capsule else none
    castRay := fun o _ => if o.x = 2 then [⟨20⟩] else if o.x = 3 then [⟨21⟩] else []
    globalPosition := fun _ => ⟨0, 0, 0⟩ }

/-- A turret at the origin watching the half-space `x ≥ 1`, hostile to
all, with its own collider `99`. -/
noncomputable def exSelTurret : TurretSelect.Turret :=
  ⟨9, 99, .all, 0, fun v => decide (1 ≤ v.x)⟩

/-! ## Theorems -/

/-- Claim C1: on every tick of `ThreatenTarget`, an unavailable upper-body
layer yields `Failure`; while the layer's active state equals the threaten
state the node returns `Running` (marking the scream in progress); while
not yet in the threaten state and not previously in it this cycle it sets
`is_screaming` and returns `Running`; and on the first tick observing the
layer having left the threaten state after having been in it, it resets
`threaten_timeout` to the freshly sampled value — in `[20,60)` by the
`gen_range(20.0..60.0)` contract — and returns `Success`. -/
theorem threaten_tick_spec (self : ThreatenTarget) (ctx : ThreatenCtx) (rng2060 : ℚ) :
    (ctx.state_machine.upperBodyLayer ctx.graph = none →
      self.tick ctx rng2060 = (self, ctx, .failure)) ∧
    (∀ layer, ctx.state_machine.upperBodyLayer ctx.graph = some layer →
      layer.activeState = ctx.state_machine.threaten_state →
      self.tick ctx rng2060 = (⟨true⟩, { ctx with stood_still := true }, .running)) ∧
    (∀ layer, ctx.state_machine.upperBodyLayer ctx.graph = some layer →
      layer.activeState ≠ ctx.state_machine.threaten_state →
      self.in_progress = false →
      self.tick ctx rng2060 = (self, { ctx with is_screaming := true }, .running)) ∧
    (∀ layer, ctx.state_machine.upperBodyLayer ctx.graph = some layer →
      layer.activeState ≠ ctx.state_machine.threaten_state →
      self.in_progress = true → 20 ≤ rng2060 → rng2060 < 60 →
      self.tick ctx rng2060 =
        (⟨false⟩, { ctx with threaten_timeout := rng2060 }, .success) ∧
      20 ≤ (self.tick ctx rng2060).2.1.threaten_timeout ∧
      (self.tick ctx rng2060).2.1.threaten_timeout < 60) := by
  refine ⟨?_, ?_, ?_, ?_⟩
  · intro hnone
    simp [ThreatenTarget.tick, hnone]
  · intro layer hsome hact
    simp [ThreatenTarget.tick, hsome, hact]
  · intro layer hsome hact hprog
    simp [ThreatenTarget.tick, hsome, hact, hprog]
  · intro layer hsome hact hprog h20 h60
    refine ⟨by simp [ThreatenTarget.tick, hsome, hact, hprog], ?_, ?_⟩ <;>
      simp [ThreatenTarget.tick, hsome, hact, hprog] <;> assumption

/-- Witness for C1: a concrete context in which the scream was in progress
and the layer has left the threaten state; the sampled value `30` lands in
the timeout and the node reports `Success`. -/
theorem threaten_tick_spec_witness :
    ThreatenTarget.tick ⟨true⟩ wThreatenCtx 30 =
      (⟨false⟩, { wThreatenCtx with threaten_timeout := 30 }, .success) ∧
    20 ≤ (ThreatenTarget.tick ⟨true⟩ wThreatenCtx 30).2.1.threaten_timeout ∧
    (ThreatenTarget.tick ⟨true⟩ wThreatenCtx 30).2.1.threaten_timeout < 60 :=
  (threaten_tick_spec ⟨true⟩ wThreatenCtx 30).2.2.2 wUpperLayer rfl (by decide) rfl
    (by norm_num) (by norm_num)

/-- Claim C9: `Bot::on_actor_removed(handle)` clears the bot's target
exactly when the current target exists and references that handle; a bot
whose target references a different entity (or has no target) is left
unchanged. -/
theorem bot_on_actor_removed_spec (b : Bot) (h : Nat) :
    (∀ t, b.target = some t → ((b.onActorRemoved h).target = none ↔ t.handle = h)) ∧
    (∀ t, b.target = some t → t.handle ≠ h → b.onActorRemoved h = b) ∧
    (b.target = none → b.onActorRemoved h = b) := by
  refine ⟨?_, ?_, ?_⟩
  · intro t ht
    by_cases hh : t.handle = h <;> simp [Bot.onActorRemoved, ht, hh]
  · intro t ht hne
    simp [Bot.onActorRemoved, ht, hne]
  · intro ht
    simp [Bot.onActorRemoved, ht]

/-- Witness for C9: removing entity `5` clears a target referencing `5`;
removing entity `7` leaves that same target untouched. -/
theorem bot_on_actor_removed_spec_witness :
    ((Bot.onActorRemoved ⟨some ⟨(0, 0, 0), 5⟩⟩ 5).target = none ↔ (5 : Nat) = 5) ∧
    Bot.onActorRemoved ⟨some ⟨(0, 0, 0), 5⟩⟩ 7 = ⟨some ⟨(0, 0, 0), 5⟩⟩ :=
  ⟨(bot_on_actor_removed_spec ⟨some ⟨(0, 0, 0), 5⟩⟩ 5).1 ⟨(0, 0, 0), 5⟩ rfl,
   (bot_on_actor_removed_spec ⟨some ⟨(0, 0, 0), 5⟩⟩ 7).2.1 ⟨(0, 0, 0), 5⟩ rfl (by decide)⟩

/-- Claim C10: `StateMachine::apply` is total exactly on graphs where the
stored ABSM handle resolves — on a stale or wrong-typed handle it panics
(the `unwrap`, modelled as `none`), whereas `fetch_layer` and the two layer
accessors return `None` gracefully in that same situation. -/
theorem state_machine_apply_panics_iff (sm : StateMachine) (g : SGraph)
    (input : StateMachineInput) (idx : Nat) :
    ((sm.apply g input).isSome ↔ (tryGetAbsm g sm.absm).isSome) ∧
    (tryGetAbsm g sm.absm = none →
      sm.apply g input = none ∧ sm.fetchLayer g idx = none ∧
      sm.upperBodyLayer g = none ∧ sm.lowerBodyLayer g = none) := by
  constructor
  · cases habs : tryGetAbsm g sm.absm <;> simp [StateMachine.apply, habs]
  · intro habs
    simp [StateMachine.apply, StateMachine.fetchLayer, StateMachine.upperBodyLayer,
      StateMachine.lowerBodyLayer, habs]

/-- Witness for C10: over the empty graph the stale state machine's
`apply` panics while all layer accessors return `None`. -/
theorem state_machine_apply_panics_iff_witness :
    wStaleSM.apply wEmptyGraph ⟨false, false, false, 0, false, 0, false, false⟩ = none ∧
    wStaleSM.fetchLayer wEmptyGraph 1 = none ∧
    wStaleSM.upperBodyLayer wEmptyGraph = none ∧
    wStaleSM.lowerBodyLayer wEmptyGraph = none :=
  (state_machine_apply_panics_iff wStaleSM wEmptyGraph
    ⟨false, false, false, 0, false, 0, false, false⟩ 1).2 rfl

/-- Claim C7: when the turret has a resolved living target and its fire
timer has elapsed, `Consecutive` mode fires exactly the barrel at the
current index and advances the index by one modulo the barrel count, while
`Simultaneously` mode fires every barrel in the same tick; in both modes
the fire timer is reset to the shoot interval. -/
theorem turret_fire_dispatch_spec (t : TurretFire.Turret)
    (hTimer : t.shoot_timer ≤ 0) (hIdx : t.barrel_index < t.barrels.length) :
    (t.shoot_mode = .consecutive →
      (TurretFire.fireStep t).2 = [t.barrel_index] ∧
      (TurretFire.fireStep t).1.barrel_index = (t.barrel_index + 1) % t.barrels.length ∧
      (TurretFire.fireStep t).1.barrel_index < t.barrels.length) ∧
    (t.shoot_mode = .simultaneously →
      (TurretFire.fireStep t).2 = List.range t.barrels.length ∧
      (TurretFire.fireStep t).1.barrel_index = t.barrel_index) ∧
    (TurretFire.fireStep t).1.shoot_timer = t.shoot_interval := by
  have hget : t.barrels[t.barrel_index]? = some t.barrels[t.barrel_index] :=
    List.getElem?_eq_getElem hIdx
  have hpos : 0 < t.barrels.length := Nat.lt_of_le_of_lt (Nat.zero_le _) hIdx
  refine ⟨?_, ?_, ?_⟩
  · intro hmode
    by_cases hwrap : t.barrels.length ≤ t.barrel_index + 1
    · have hlen : t.barrel_index + 1 = t.barrels.length :=
        Nat.le_antisymm hIdx hwrap
      refine ⟨?_, ?_, ?_⟩ <;>
        simp [TurretFire.fireStep, if_pos hTimer, hmode, hget, List.length_set,
          if_pos hwrap, ← hlen, Nat.mod_self, hpos]
    · have hlt : t.barrel_index + 1 < t.barrels.length := Nat.lt_of_not_le hwrap
      refine ⟨?_, ?_, ?_⟩ <;>
        simp [TurretFire.fireStep, if_pos hTimer, hmode, hget, List.length_set,
          if_neg hwrap, Nat.mod_eq_of_lt hlt, hlt]
  · intro hmode
    constructor <;> simp [TurretFire.fireStep, if_pos hTimer, hmode]
  · cases hmode : t.shoot_mode <;>
      simp [TurretFire.fireStep, if_pos hTimer, hmode, hget]

/-- Witness for C7: the concrete two-barrel consecutive turret fires its
barrel `1` and wraps the index back to `0`, resetting the timer. -/
theorem turret_fire_dispatch_spec_witness :
    (TurretFire.fireStep wFireTurret).2 = [wFireTurret.barrel_index] ∧
    (TurretFire.fireStep wFireTurret).1.barrel_index =
      (wFireTurret.barrel_index + 1) % wFireTurret.barrels.length ∧
    (TurretFire.fireStep wFireTurret).1.shoot_timer = wFireTurret.shoot_interval := by
  have h := turret_fire_dispatch_spec wFireTurret (by norm_num [wFireTurret]) (by decide)
  exact ⟨(h.1 rfl).1, (h.1 rfl).2.1, h.2.2⟩

/-- Claim C5: `StateMachine::new` returns no state machine whenever the
ABSM node, the `"UpperBody"` layer, or any of the four named upper-body
states (`Aim`, `MeleeAttack`, `Threaten`, `Dead`) fails to resolve (the
layer-index assertion panic is likewise modelled as failed construction);
and whenever it succeeds, all four state handles are resolved in the
upper-body layer — the bot cannot initialize with a partially resolved
rig. -/
theorem state_machine_new_spec (mh : Nat) (g : SGraph) :
    (tryGetAbsm g mh = none → StateMachine.new mh g = none) ∧
    (∀ machine, tryGetAbsm g mh = some machine →
      findLayerByNameRef machine "UpperBody" = none → StateMachine.new mh g = none) ∧
    (∀ machine idx ub, tryGetAbsm g mh = some machine →
      findLayerByNameRef machine "UpperBody" = some (idx, ub) →
      (findStateByNameRef ub "MeleeAttack" = none ∨ findStateByNameRef ub "Aim" = none ∨
        findStateByNameRef ub "Threaten" = none ∨ findStateByNameRef ub "Dead" = none) →
      StateMachine.new mh g = none) ∧
    (∀ sm, StateMachine.new mh g = some sm →
      ∃ machine idx ub, tryGetAbsm g mh = some machine ∧
        findLayerByNameRef machine "UpperBody" = some (idx, ub) ∧
        idx = UPPER_BODY_LAYER_INDEX ∧
        findStateByNameRef ub "MeleeAttack" = some sm.attack_state ∧
        findStateByNameRef ub "Aim" = some sm.aim_state ∧
        findStateByNameRef ub "Threaten" = some sm.threaten_state ∧
        findStateByNameRef ub "Dead" = some sm.dead_state ∧
        sm.absm = mh) := by
  refine ⟨?_, ?_, ?_, ?_⟩
  · intro h
    simp [StateMachine.new, h]
  · intro machine hm hl
    simp [StateMachine.new, hm, hl]
  · intro machine idx ub hm hl hdisj
    by_cases hidx : idx = UPPER_BODY_LAYER_INDEX
    · subst hidx
      rcases hdisj with h1 | h2 | h3 | h4
      · simp [StateMachine.new, hm, hl, h1]
      · cases hMel : findStateByNameRef ub "MeleeAttack" <;>
          simp [StateMachine.new, hm, hl, hMel, h2]
      · cases hMel : findStateByNameRef ub "MeleeAttack" <;>
          cases hAim : findStateByNameRef ub "Aim" <;>
            simp [StateMachine.new, hm, hl, hMel, hAim, h3]
      · cases hMel : findStateByNameRef ub "MeleeAttack" <;>
          cases hAim : findStateByNameRef ub "Aim" <;>
            cases hThr : findStateByNameRef ub "Threaten" <;>
              simp [StateMachine.new, hm, hl, hMel, hAim, hThr, h4]
    · simp [StateMachine.new, hm, hl, hidx]
  · intro sm hsm
    cases hm : tryGetAbsm g mh with
    | none => simp [StateMachine.new, hm] at hsm
    | some machine =>
    cases hl : findLayerByNameRef machine "UpperBody" with
    | none => simp [StateMachine.new, hm, hl] at hsm
    | some p =>
    obtain ⟨idx, ub⟩ := p
    by_cases hidx : idx = UPPER_BODY_LAYER_INDEX
    · subst hidx
      cases hMel : findStateByNameRef ub "MeleeAttack" with
      | none => simp [StateMachine.new, hm, hl, hMel] at hsm
      | some mel =>
      cases hAim : findStateByNameRef ub "Aim" with
      | none => simp [StateMachine.new, hm, hl, hMel, hAim] at hsm
      | some aim =>
      cases hThr : findStateByNameRef ub "Threaten" with
      | none => simp [StateMachine.new, hm, hl, hMel, hAim, hThr] at hsm
      | some thr =>
      cases hDead : findStateByNameRef ub "Dead" with
      | none => simp [StateMachine.new, hm, hl, hMel, hAim, hThr, hDead] at hsm
      | some dead =>
      cases sm with
      | mk absm aim_state attack_state threaten_state dead_state attack_animations =>
        simp only [StateMachine.new, hm, hl, hMel, hAim, hThr, hDead, Option.bind_eq_bind,
          Option.some_bind, UPPER_BODY_LAYER_INDEX, ne_eq, not_true_eq_false, if_false,
          ite_not, if_pos, Option.some.injEq, StateMachine.mk.injEq] at hsm
        obtain ⟨rfl, rfl, rfl, rfl, rfl, rfl⟩ := hsm
        exact ⟨machine, UPPER_BODY_LAYER_INDEX, ub, rfl, hl, rfl, hMel, hAim, hThr, hDead, rfl⟩
    · simp [StateMachine.new, hm, hl, hidx] at hsm

/-- Witness for C5: over `wGraph` construction succeeds and resolves the
four named states of the concrete upper-body layer. -/
theorem state_machine_new_spec_witness :
    ∃ machine idx ub, tryGetAbsm wGraph 3 = some machine ∧
      findLayerByNameRef machine "UpperBody" = some (idx, ub) ∧
      idx = UPPER_BODY_LAYER_INDEX ∧
      findStateByNameRef ub "MeleeAttack" = some wStateMachine.attack_state ∧
      findStateByNameRef ub "Aim" = some wStateMachine.aim_state ∧
      findStateByNameRef ub "Threaten" = some wStateMachine.threaten_state ∧
      findStateByNameRef ub "Dead" = some wStateMachine.dead_state ∧
      wStateMachine.absm = 3 :=
  (state_machine_new_spec 3 wGraph).2.2.2 wStateMachine (by decide)

/-! ### Impact handler: map bookkeeping lemmas -/

theorem lookupEntry_cons (b1 : Nat) (b2 : ImpactEntry) (m : ImpactMap) (h : Nat) :
    lookupEntry ((b1, b2) :: m) h = if b1 = h then some b2 else lookupEntry m h := by
  by_cases hq : b1 = h
  · subst hq
    simp [lookupEntry, List.find?_cons]
  · simp [lookupEntry, List.find?_cons, hq]

theorem lookupEntry_eq_none_iff (m : ImpactMap) (h : Nat) :
    lookupEntry m h = none ↔ h ∉ impactKeys m := by
  simp only [lookupEntry, impactKeys, Option.map_eq_none', List.find?_eq_none, List.mem_map,
    beq_iff_eq]
  constructor
  · rintro hall ⟨be, hbe, hfst⟩
    exact hall be hbe hfst
  · rintro hno be hbe hfst
    exact hno ⟨be, hbe, hfst⟩

theorem lookupEntry_map_entry (m : ImpactMap) (g : ImpactEntry → ImpactEntry) (h : Nat) :
    lookupEntry (m.map (fun be => (be.1, g be.2))) h = (lookupEntry m h).map g := by
  induction m with
  | nil => rfl
  | cons be m ih =>
    obtain ⟨b1, b2⟩ := be
    by_cases hq : b1 = h
    · subst hq
      simp [List.map_cons, lookupEntry_cons]
    · simp [List.map_cons, lookupEntry_cons, hq, ih]

theorem lookup_overwrite (h : Nat) (rot : Quat) (m : ImpactMap) :
    (lookupEntry m h).isSome = true →
    lookupEntry (m.map (fun be => if be.1 == h then (be.1, ⟨0, rot⟩) else be)) h =
      some ⟨0, rot⟩ := by
  induction m with
  | nil => intro hp; simp [lookupEntry] at hp
  | cons be m ih =>
    obtain ⟨b1, b2⟩ := be
    intro hp
    by_cases hq : b1 = h
    · subst hq
      simp [List.map_cons, lookupEntry_cons]
    · have htail : (lookupEntry m h).isSome = true := by
        simpa [lookupEntry_cons, hq] using hp
      simpa [List.map_cons, lookupEntry_cons, hq] using ih htail

theorem lookup_append_single (m : ImpactMap) (h : Nat) (e : ImpactEntry)
    (hm : lookupEntry m h = none) : lookupEntry (m ++ [(h, e)]) h = some e := by
  induction m with
  | nil => simp [lookupEntry_cons]
  | cons be m ih =>
    obtain ⟨b1, b2⟩ := be
    by_cases hq : b1 = h
    · rw [lookupEntry_cons] at hm
      simp [hq] at hm
    · rw [lookupEntry_cons, if_neg hq] at hm
      rw [List.cons_append, lookupEntry_cons, if_neg hq]
      exact ih hm

theorem lookup_insert_self (m : ImpactMap) (h : Nat) (rot : Quat) :
    lookupEntry (entryAndModifyOrInsert m h rot) h = some ⟨0, rot⟩ := by
  unfold entryAndModifyOrInsert
  by_cases hp : (lookupEntry m h).isSome = true
  · rw [if_pos hp]
    exact lookup_overwrite h rot m hp
  · rw [if_neg hp]
    have hm : lookupEntry m h = none := Option.not_isSome_iff_eq_none.mp (by simpa using hp)
    exact lookup_append_single m h _ hm

theorem impactKeys_map_preserved (m : ImpactMap) (f : Nat × ImpactEntry → Nat × ImpactEntry)
    (hf : ∀ be, (f be).1 = be.1) : impactKeys (m.map f) = impactKeys m := by
  simp only [impactKeys, List.map_map]
  exact List.map_congr_left (fun be _ => hf be)

theorem impactKeys_insert (m : ImpactMap) (h : Nat) (rot : Quat) :
    impactKeys (entryAndModifyOrInsert m h rot) =
      if (lookupEntry m h).isSome then impactKeys m else impactKeys m ++ [h] := by
  unfold entryAndModifyOrInsert
  by_cases hp : (lookupEntry m h).isSome = true
  · rw [if_pos hp, if_pos hp]
    exact impactKeys_map_preserved m _ (fun be => by
      by_cases hbe : (be.1 == h) = true <;> simp [hbe])
  · rw [if_neg hp, if_neg hp]
    simp [impactKeys]

theorem nodup_insert (m : ImpactMap) (h : Nat) (rot : Quat)
    (hnodup : (impactKeys m).Nodup) :
    (impactKeys (entryAndModifyOrInsert m h rot)).Nodup := by
  rw [impactKeys_insert]
  by_cases hp : (lookupEntry m h).isSome = true
  · rw [if_pos hp]
    exact hnodup
  · rw [if_neg hp]
    rw [List.nodup_append]
    refine ⟨hnodup, List.nodup_singleton h, ?_⟩
    intro a ha hb
    have hm : lookupEntry m h = none := Option.not_isSome_iff_eq_none.mp (by simpa using hp)
    have hni := (lookupEntry_eq_none_iff m h).mp hm
    simp only [List.mem_singleton] at hb
    subst hb
    exact hni ha

theorem length_insert_present (m : ImpactMap) (h : Nat) (rot : Quat)
    (hp : (lookupEntry m h).isSome = true) :
    (entryAndModifyOrInsert m h rot).length = m.length := by
  unfold entryAndModifyOrInsert
  rw [if_pos hp, List.length_map]

theorem foldl_updateStep_fst (dt : ℚ) (l : ImpactMap) :
    ∀ acc : ImpactMap × IScene,
      (l.foldl (updateStep dt) acc).1 =
        acc.1 ++ l.map (fun be => (be.1, ⟨be.2.k + dt, be.2.source⟩)) := by
  induction l with
  | nil => intro acc; simp
  | cons be l ih =>
    intro acc
    rw [List.foldl_cons, ih]
    simp [updateStep]

theorem lookupEntry_map_advance (m : ImpactMap) (dt : ℚ) (h : Nat) :
    lookupEntry (m.map (fun be => (be.1, ⟨be.2.k + dt, be.2.source⟩))) h =
      (lookupEntry m h).map (fun e => ⟨e.k + dt, e.source⟩) := by
  simpa using lookupEntry_map_entry m (fun e => ⟨e.k + dt, e.source⟩) h

theorem updateAndApply_fst (m : ImpactMap) (dt : ℚ) (sc : IScene) :
    (updateAndApply m dt sc).1 =
      (m.map (fun be => (be.1, ⟨be.2.k + dt, be.2.source⟩))).filter
        (fun be => be.2.k < 1) := by
  simp only [updateAndApply]
  rw [foldl_updateStep_fst]
  simp

theorem nodup_updateAndApply (m : ImpactMap) (dt : ℚ) (sc : IScene)
    (hnodup : (impactKeys m).Nodup) :
    (impactKeys (updateAndApply m dt sc).1).Nodup := by
  rw [updateAndApply_fst]
  have hkeys : impactKeys (m.map (fun be => (be.1, ⟨be.2.k + dt, be.2.source⟩))) =
      impactKeys m :=
    impactKeys_map_preserved m (fun be => (be.1, ⟨be.2.k + dt, be.2.source⟩)) (fun be => rfl)
  have hsub : List.Sublist
      (impactKeys ((m.map (fun be => (be.1, ⟨be.2.k + dt, be.2.source⟩))).filter
        (fun be => be.2.k < 1)))
      (impactKeys (m.map (fun be => (be.1, ⟨be.2.k + dt, be.2.source⟩)))) :=
    (List.filter_sublist _).map Prod.fst
  rw [hkeys] at hsub
  exact hnodup.sublist hsub

theorem lookup_filter_none (l : ImpactMap) (p : Nat × ImpactEntry → Bool) (h : Nat)
    (hm : lookupEntry l h = none) : lookupEntry (l.filter p) h = none := by
  rw [lookupEntry_eq_none_iff] at hm ⊢
  intro hmem
  exact hm (((List.filter_sublist l).map Prod.fst).subset hmem)

theorem lookupEntry_filter (p : Nat × ImpactEntry → Bool) (h : Nat) (l : ImpactMap)
    (hnodup : (impactKeys l).Nodup) :
    lookupEntry (l.filter p) h =
      (lookupEntry l h).bind (fun e => if p (h, e) = true then some e else none) := by
  induction l with
  | nil => rfl
  | cons be l ih =>
    obtain ⟨b1, b2⟩ := be
    rw [impactKeys, List.map_cons, List.nodup_cons] at hnodup
    obtain ⟨hni, hnd⟩ := hnodup
    by_cases hq : b1 = h
    · subst hq
      have hnone : lookupEntry l b1 = none :=
        (lookupEntry_eq_none_iff l b1).mpr (by simpa [impactKeys] using hni)
      by_cases hp : p (b1, b2) = true
      · rw [List.filter_cons_of_pos hp]
        simp [lookupEntry_cons, hp]
      · rw [List.filter_cons_of_neg (by simpa using hp)]
        rw [lookup_filter_none l p b1 hnone]
        simp [lookupEntry_cons, hp]
    · by_cases hp : p (b1, b2) = true
      · rw [List.filter_cons_of_pos hp]
        simp [lookupEntry_cons, hq, ih hnd]
      · rw [List.filter_cons_of_neg (by simpa using hp)]
        simp [lookupEntry_cons, hq, ih hnd]

theorem lookup_updateAndApply_none (m : ImpactMap) (dt : ℚ) (sc : IScene) (h : Nat)
    (hm : lookupEntry m h = none) :
    lookupEntry (updateAndApply m dt sc).1 h = none := by
  rw [updateAndApply_fst]
  apply lookup_filter_none
  rw [lookupEntry_map_advance, hm]
  rfl

theorem lookup_updateAndApply_some (m : ImpactMap) (dt : ℚ) (sc : IScene) (h : Nat)
    (e : ImpactEntry) (hnodup : (impactKeys m).Nodup) (hm : lookupEntry m h = some e) :
    lookupEntry (updateAndApply m dt sc).1 h =
      if e.k + dt < 1 then some ⟨e.k + dt, e.source⟩ else none := by
  rw [updateAndApply_fst]
  have hknodup : (impactKeys (m.map (fun be => (be.1, ⟨be.2.k + dt, be.2.source⟩)))).Nodup := by
    rw [impactKeys_map_preserved m (fun be => (be.1, ⟨be.2.k + dt, be.2.source⟩))
      (fun be => rfl)]
    exact hnodup
  rw [lookupEntry_filter _ h _ hknodup, lookupEntry_map_advance, hm]
  by_cases hlt : e.k + dt < 1 <;> simp [hlt]

theorem runUpdates_cons (m : ImpactMap) (sc : IScene) (d : ℚ) (dts : List ℚ) :
    runUpdates m sc (d :: dts) =
      runUpdates (updateAndApply m d sc).1 (updateAndApply m d sc).2 dts := rfl

theorem runUpdates_removes (h : Nat) (dts : List ℚ) :
    ∀ (c : ℚ) (m : ImpactMap) (sc : IScene),
      (impactKeys m).Nodup →
      (lookupEntry m h = none ∨ ∃ e, lookupEntry m h = some e ∧ c ≤ e.k ∧ e.k < 1) →
      (∀ x ∈ dts, 0 < x) → 1 ≤ c + dts.sum →
      lookupEntry (runUpdates m sc dts).1 h = none := by
  induction dts with
  | nil =>
    intro c m sc _ hinv _ hsum
    rcases hinv with hn | ⟨e, _, hck, hk1⟩
    · simpa [runUpdates] using hn
    · exfalso
      simp only [List.sum_nil, add_zero] at hsum
      linarith
  | cons d dts ih =>
    intro c m sc hnd hinv hpos hsum
    rw [runUpdates_cons]
    apply ih (c + d)
    · exact nodup_updateAndApply _ _ _ hnd
    · rcases hinv with hn | ⟨e, he, hck, _⟩
      · exact Or.inl (lookup_updateAndApply_none _ _ _ _ hn)
      · by_cases hlt : e.k + d < 1
        · refine Or.inr ⟨⟨e.k + d, e.source⟩, ?_, ?_, hlt⟩
          · rw [lookup_updateAndApply_some _ _ _ _ _ hnd he, if_pos hlt]
          · exact add_le_add_right hck d
        · exact Or.inl (by rw [lookup_updateAndApply_some _ _ _ _ _ hnd he, if_neg hlt])
    · intro x hx
      exact hpos x (List.mem_cons_of_mem _ hx)
    · simp only [List.sum_cons] at hsum
      linarith

/-- Claim C6: the impact map keeps at most one entry per bone — both
`handle_impact` and `update_and_apply` preserve pairwise-distinct keys —
and `handle_impact` on a bone that already has an active entry overwrites
its source rotation and resets its progress `k` to `0`, restarting the
blend without adding a second entry (the map length is unchanged). -/
theorem impact_map_single_entry (m : ImpactMap) (sc : IScene) (h : Nat)
    (p d : Vec3) (dt : ℚ) (hnodup : (impactKeys m).Nodup) :
    (impactKeys (handleImpact m sc h p d)).Nodup ∧
    (impactKeys (updateAndApply m dt sc).1).Nodup ∧
    (∀ e M axis, lookupEntry m h = some e → sc.tryGet h = some M →
      ((transformPoint (tryInverseOrDefault M) p).cross
        (transformVector (tryInverseOrDefault M) d)).tryNormalize f32Epsilon = some axis →
      lookupEntry (handleImpact m sc h p d) h =
        some ⟨0, Quat.fromAxisAngle axis (toRadians 24)⟩ ∧
      (handleImpact m sc h p d).length = m.length) := by
  refine ⟨?_, nodup_updateAndApply m dt sc hnodup, ?_⟩
  · cases hres : sc.tryGet h with
    | none => simpa [handleImpact, hres] using hnodup
    | some M =>
      cases haxis : ((transformPoint (tryInverseOrDefault M) p).cross
          (transformVector (tryInverseOrDefault M) d)).tryNormalize f32Epsilon with
      | none => simpa [handleImpact, hres, haxis] using hnodup
      | some axis =>
        have : handleImpact m sc h p d =
            entryAndModifyOrInsert m h (Quat.fromAxisAngle axis (toRadians 24)) := by
          simp [handleImpact, hres, haxis]
        rw [this]
        exact nodup_insert m h _ hnodup
  · intro e M axis he hres haxis
    have hrw : handleImpact m sc h p d =
        entryAndModifyOrInsert m h (Quat.fromAxisAngle axis (toRadians 24)) := by
      simp [handleImpact, hres, haxis]
    have hp : (lookupEntry m h).isSome = true := by rw [he]; rfl
    rw [hrw]
    exact ⟨lookup_insert_self m h _, length_insert_present m h _ hp⟩

/-- Claim C8: `handle_impact` leaves the impact map unchanged — a silent
no-op — whenever the bone handle does not resolve, and likewise whenever
the rotation axis is degenerate, i.e. the cross product of the bone-local
impact point and direction cannot be normalized. -/
theorem handle_impact_noop (m : ImpactMap) (sc : IScene) (h : Nat) (p d : Vec3) :
    (sc.tryGet h = none → handleImpact m sc h p d = m) ∧
    (∀ M, sc.tryGet h = some M →
      ((transformPoint (tryInverseOrDefault M) p).cross
        (transformVector (tryInverseOrDefault M) d)).tryNormalize f32Epsilon = none →
      handleImpact m sc h p d = m) := by
  constructor
  · intro hres
    simp [handleImpact, hres]
  · intro M hres haxis
    simp [handleImpact, hres, haxis]

/-- Claim C3 (amended): after `handle_impact` inserts an entry for a bone
(the handle resolves and the rotation axis is non-degenerate) and
`update_and_apply` is called repeatedly with positive `dt` summing to at
least `1.0`, that bone's entry has been removed from the impact map.  (The
bone's rotation is *not* restored by the handler itself — each tick
multiplies an interpolated rotation permanently onto the bone's transform;
see the counterexample.) -/
theorem impact_decay_removes_entry (m0 : ImpactMap) (sc : IScene) (h : Nat)
    (p d : Vec3) (dts : List ℚ) (M : Mat4) (axis : Vec3)
    (hnodup : (impactKeys m0).Nodup)
    (hres : sc.tryGet h = some M)
    (haxis : ((transformPoint (tryInverseOrDefault M) p).cross
      (transformVector (tryInverseOrDefault M) d)).tryNormalize f32Epsilon = some axis)
    (hpos : ∀ x ∈ dts, 0 < x) (hsum : 1 ≤ dts.sum) :
    lookupEntry (runUpdates (handleImpact m0 sc h p d) sc dts).1 h = none := by
  have hrw : handleImpact m0 sc h p d =
      entryAndModifyOrInsert m0 h (Quat.fromAxisAngle axis (toRadians 24)) := by
    simp [handleImpact, hres, haxis]
  rw [hrw]
  apply runUpdates_removes h dts 0
  · exact nodup_insert m0 h _ hnodup
  · exact Or.inr ⟨⟨0, Quat.fromAxisAngle axis (toRadians 24)⟩,
      lookup_insert_self m0 h _, le_refl 0, by norm_num⟩
  · exact hpos
  · simpa using hsum

/-! ### Concrete geometry evaluation lemmas -/

theorem tryInverseOrDefault_one : tryInverseOrDefault (1 : Mat4) = 1 := by
  simp [tryInverseOrDefault]

theorem transformPoint_one (p : Vec3) : transformPoint 1 p = p := by
  simp [transformPoint, Matrix.one_apply]

theorem transformVector_one (v : Vec3) : transformVector 1 v = v := by
  simp [transformVector, Matrix.one_apply]

theorem norm_unitZ : Vec3.norm ⟨0, 0, 1⟩ = 1 := by
  simp [Vec3.norm, Vec3.normSq]

theorem tryNormalize_unitZ :
    Vec3.tryNormalize ⟨0, 0, 1⟩ f32Epsilon = some ⟨0, 0, 1⟩ := by
  rw [Vec3.tryNormalize, norm_unitZ]
  rw [if_neg (by norm_num [f32Epsilon])]
  simp [Vec3.smul]

theorem cross_ex : Vec3.cross ⟨1, 0, 0⟩ ⟨0, 1, 0⟩ = ⟨0, 0, 1⟩ := by
  simp [Vec3.cross]

theorem impactGuardEx :
    ((transformPoint (tryInverseOrDefault 1) ⟨1, 0, 0⟩).cross
      (transformVector (tryInverseOrDefault 1) ⟨0, 1, 0⟩)).tryNormalize f32Epsilon =
      some ⟨0, 0, 1⟩ := by
  rw [tryInverseOrDefault_one, transformPoint_one, transformVector_one, cross_ex,
    tryNormalize_unitZ]

theorem cross_parallel_ex : Vec3.cross ⟨1, 0, 0⟩ ⟨2, 0, 0⟩ = ⟨0, 0, 0⟩ := by
  simp [Vec3.cross]

theorem tryNormalize_zero : Vec3.tryNormalize ⟨0, 0, 0⟩ f32Epsilon = none := by
  have hn : Vec3.norm ⟨0, 0, 0⟩ = 0 := by
    simp [Vec3.norm, Vec3.normSq]
  rw [Vec3.tryNormalize, hn]
  rw [if_pos (by norm_num [f32Epsilon])]

theorem impactGuardDegEx :
    ((transformPoint (tryInverseOrDefault 1) ⟨1, 0, 0⟩).cross
      (transformVector (tryInverseOrDefault 1) ⟨2, 0, 0⟩)).tryNormalize f32Epsilon =
      none := by
  rw [tryInverseOrDefault_one, transformPoint_one, transformVector_one, cross_parallel_ex,
    tryNormalize_zero]

/-- Witness for C8: a dangling bone handle (`7`) and a degenerate axis
(parallel local point and direction) both leave the map unchanged. -/
theorem handle_impact_noop_witness :
    handleImpact [] impactSceneEx 7 ⟨1, 0, 0⟩ ⟨0, 1, 0⟩ = [] ∧
    handleImpact [] impactSceneEx 5 ⟨1, 0, 0⟩ ⟨2, 0, 0⟩ = [] :=
  ⟨(handle_impact_noop [] impactSceneEx 7 ⟨1, 0, 0⟩ ⟨0, 1, 0⟩).1 rfl,
   (handle_impact_noop [] impactSceneEx 5 ⟨1, 0, 0⟩ ⟨2, 0, 0⟩).2 1 rfl impactGuardDegEx⟩

/-- Witness for C6: re-impacting bone `5`, which already holds an entry at
`k = 1/2`, overwrites it with a fresh `k = 0` entry without changing the
map's size. -/
theorem impact_map_single_entry_witness :
    lookupEntry (handleImpact [(5, ⟨1/2, Quat.one⟩)] impactSceneEx 5 ⟨1, 0, 0⟩ ⟨0, 1, 0⟩) 5 =
      some ⟨0, Quat.fromAxisAngle ⟨0, 0, 1⟩ (toRadians 24)⟩ ∧
    (handleImpact [(5, ⟨1/2, Quat.one⟩)] impactSceneEx 5 ⟨1, 0, 0⟩ ⟨0, 1, 0⟩).length =
      [(5, (⟨1/2, Quat.one⟩ : ImpactEntry))].length :=
  (impact_map_single_entry [(5, ⟨1/2, Quat.one⟩)] impactSceneEx 5 ⟨1, 0, 0⟩ ⟨0, 1, 0⟩ 1
      (by simp [impactKeys])).2.2 ⟨1/2, Quat.one⟩ 1 ⟨0, 0, 1⟩
    (by rw [lookupEntry_cons, if_pos rfl]) rfl impactGuardEx

/-- Witness for C3 (amended): the impact on bone `5` decays away after two
updates of `1/2` and `3/5` seconds (total `1.1 ≥ 1`). -/
theorem impact_decay_removes_entry_witness :
    lookupEntry (runUpdates (handleImpact [] impactSceneEx 5 ⟨1, 0, 0⟩ ⟨0, 1, 0⟩)
      impactSceneEx [1/2, 3/5]).1 5 = none :=
  impact_decay_removes_entry [] impactSceneEx 5 ⟨1, 0, 0⟩ ⟨0, 1, 0⟩ [1/2, 3/5] 1 ⟨0, 0, 1⟩
    (by simp [impactKeys]) rfl impactGuardEx
    (by intro x hx; simp at hx; rcases hx with rfl | rfl <;> norm_num)
    (by norm_num [List.sum_cons])

/-! ### The impact rotation is not restored by the handler alone -/

theorem newNormalize_unitZ : Vec3.newNormalize ⟨0, 0, 1⟩ = ⟨0, 0, 1⟩ := by
  rw [Vec3.newNormalize, norm_unitZ]
  simp [Vec3.smul]

theorem impactSourceEx_eq :
    impactSourceEx = ⟨Real.cos (Real.pi / 15), 0, 0, Real.sin (Real.pi / 15)⟩ := by
  simp only [impactSourceEx, Quat.fromAxisAngle, newNormalize_unitZ]
  have hang : toRadians 24 / 2 = Real.pi / 15 := by
    simp only [toRadians]
    ring
  rw [hang]
  simp

theorem impactSourceEx_normSq : impactSourceEx.normSq = 1 := by
  rw [impactSourceEx_eq]
  simp [Quat.normSq]

theorem impactSourceEx_norm : impactSourceEx.norm = 1 := by
  rw [Quat.norm, impactSourceEx_normSq, Real.sqrt_one]

theorem nlerp_source_zero : Quat.nlerp impactSourceEx Quat.one 0 = impactSourceEx := by
  have hlerp : Quat.lerp impactSourceEx Quat.one 0 = impactSourceEx := by
    simp [Quat.lerp, Quat.one]
  rw [Quat.nlerp, hlerp, Quat.normalize, impactSourceEx_norm]
  simp [Quat.smul]

theorem quat_one_mul (q : Quat) : Quat.mul Quat.one q = q := by
  cases q
  simp [Quat.mul, Quat.one]

theorem handleImpact_ex :
    handleImpact [] impactSceneEx 5 ⟨1, 0, 0⟩ ⟨0, 1, 0⟩ = [(5, ⟨0, impactSourceEx⟩)] := by
  have hres : impactSceneEx.tryGet 5 = some 1 := rfl
  simp [handleImpact, hres, impactGuardEx, entryAndModifyOrInsert, lookupEntry,
    impactSourceEx]

theorem updateAndApply_ex_fst :
    (updateAndApply [(5, ⟨0, impactSourceEx⟩)] 1 impactSceneEx).1 = [] := by
  rw [updateAndApply_fst]
  simp [List.filter]

theorem updateAndApply_ex_rot :
    (updateAndApply [(5, ⟨0, impactSourceEx⟩)] 1 impactSceneEx).2.rotation 5 =
      impactSourceEx := by
  simp only [updateAndApply, List.foldl_cons, List.foldl_nil, updateStep, setRotation]
  simp [impactSceneEx, Rat.cast_zero, nlerp_source_zero, quat_one_mul]

theorem sin_pi_div_fifteen_gt : (1/5 : ℝ) < Real.sin (Real.pi / 15) := by
  have h0 : (0:ℝ) < Real.pi / 15 := by positivity
  have hhi : Real.pi / 15 < (0.21 : ℝ) := by linarith [Real.pi_lt_d2]
  have h1 : Real.pi / 15 ≤ 1 := by linarith
  have h2 := Real.sin_gt_sub_cube h0 h1
  have hlo : (0.209 : ℝ) < Real.pi / 15 := by linarith [Real.pi_gt_d2]
  have hx3 : (Real.pi / 15) ^ 3 ≤ (0.21 : ℝ) ^ 3 :=
    pow_le_pow_left₀ (le_of_lt h0) (le_of_lt hhi) 3
  have hc : ((0.21 : ℝ)) ^ 3 = 0.009261 := by norm_num
  rw [hc] at hx3
  linarith

/-- Counterexample for C3: one impact on bone `5` followed by a single
`update_and_apply` with `dt = 1` (positive, total elapsed `≥ 1.0`). The
entry is removed, but the bone's local rotation now differs from its
pre-impact value by more than `1/5` in the quaternion's `z` component (it
has permanently absorbed the 24° impact rotation) — it does not return to
the pre-impact value within any reasonable epsilon. -/
theorem impact_rotation_not_restored :
    (updateAndApply (handleImpact [] impactSceneEx 5 ⟨1, 0, 0⟩ ⟨0, 1, 0⟩) 1
        impactSceneEx).1 = [] ∧
    (1/5 : ℝ) <
      |((updateAndApply (handleImpact [] impactSceneEx 5 ⟨1, 0, 0⟩ ⟨0, 1, 0⟩) 1
          impactSceneEx).2.rotation 5).z - (impactSceneEx.rotation 5).z| := by
  constructor
  · rw [handleImpact_ex]
    exact updateAndApply_ex_fst
  · rw [handleImpact_ex, updateAndApply_ex_rot]
    have hz : impactSourceEx.z = Real.sin (Real.pi / 15) := by rw [impactSourceEx_eq]
    have h0 : (impactSceneEx.rotation 5).z = 0 := rfl
    have hpos : 0 < Real.sin (Real.pi / 15) := by
      apply Real.sin_pos_of_pos_of_lt_pi
      · positivity
      · nlinarith [Real.pi_pos]
    rw [hz, h0, sub_zero, abs_of_pos hpos]
    exact sin_pi_div_fifteen_gt

namespace TurretSelect

/-- Claim C2 (amended): on re-selection, a current target that resolves to
a *dead* character short-circuits to clearing the target without scanning;
otherwise — including when the current target is still alive and valid —
the candidate list is re-scanned and the target is set to the scan's
nearest passing candidate (possibly none).  A living current target is
kept only when the scan selects it again, not unconditionally. -/
theorem select_target_spec (t : Turret) (sc : TScene) (actors : List Nat) :
    (∀ c, tryGetCharacterRef sc t.target = some c → c.dead = true →
      (selectTarget t sc actors).target = 0) ∧
    (tryGetCharacterRef sc t.target = none →
      (selectTarget t sc actors).target = (scanClosest t sc actors).1) ∧
    (∀ c, tryGetCharacterRef sc t.target = some c → c.dead = false →
      (selectTarget t sc actors).target = (scanClosest t sc actors).1) := by
  refine ⟨?_, ?_, ?_⟩
  · intro c hc hdead
    simp [selectTarget, hc, hdead]
  · intro hc
    simp [selectTarget, hc]
  · intro c hc hdead
    simp [selectTarget, hc, hdead]

/-- Witness for C2 (amended): a turret whose target resolves to a dead
character clears its target on re-selection. -/
theorem select_target_spec_witness :
    (selectTarget exAliveTurret exDeadScene [3]).target = 0 :=
  (select_target_spec exAliveTurret exDeadScene [3]).1 ⟨true, ⟨0, 0, 0⟩, false⟩ rfl rfl

/-- Counterexample for C2: the current target (handle `7`) is still alive
and valid, yet re-selection with an empty candidate list *clears* it —
the code re-scans whenever the target is not a resolved dead character,
rather than keeping a live target. -/
theorem select_target_not_kept :
    tryGetCharacterRef exAliveScene exAliveTurret.target =
      some ⟨false, ⟨0, 0, 0⟩, true⟩ ∧
    exAliveTurret.target = 7 ∧
    (selectTarget exAliveTurret exAliveScene []).target = 0 := by
  refine ⟨rfl, rfl, ?_⟩
  rfl

/-- Extending the scan invariant across a non-selectable candidate leaves
the accumulator valid. -/
theorem scanInv_extend_notsel (t : Turret) (sc : TScene) (sp : Vec3) (seen : List Nat)
    (acc : Nat × ℝ × Nat) (h : Nat) (hinv : ScanInv t sc sp seen acc)
    (hnot : ¬ Selectable t sc sp h) : ScanInv t sc sp (seen ++ [h]) acc := by
  rcases hinv with ⟨h1, h2, h3⟩ | ⟨h1, h2, h3, h4, h5⟩
  · left
    refine ⟨h1, h2, ?_⟩
    intro h' hmem hsel
    rcases List.mem_append.mp hmem with hm | hm
    · exact h3 h' hm hsel
    · simp only [List.mem_singleton] at hm
      subst hm
      exact absurd hsel hnot
  · right
    refine ⟨List.mem_append_left _ h1, h2, h3, h4, ?_⟩
    intro h' hmem hsel
    rcases List.mem_append.mp hmem with hm | hm
    · exact h5 h' hm hsel
    · simp only [List.mem_singleton] at hm
      subst hm
      exact absurd hsel hnot

/-- One step of the candidate scan preserves the invariant. -/
theorem scanStep_inv (t : Turret) (sc : TScene) (sp : Vec3) (seen : List Nat)
    (acc : Nat × ℝ × Nat) (h : Nat) (hinv : ScanInv t sc sp seen acc) :
    ScanInv t sc sp (seen ++ [h]) (scanStep t sc sp acc h) := by
  rcases hact : tryGetCharacterRef sc h with _ | c
  · have hnot : ¬ Selectable t sc sp h := by
      rintro ⟨c, hc, -⟩
      rw [hact] at hc
      cases hc
    simpa [scanStep, hact] using scanInv_extend_notsel t sc sp seen acc h hinv hnot
  · by_cases hdead : c.dead = true
    · have hnot : ¬ Selectable t sc sp h := by
        rintro ⟨c', hc', hd', -⟩
        rw [hact] at hc'
        cases hc'
        rw [hdead] at hd'
        cases hd'
      simpa [scanStep, hact, hdead] using scanInv_extend_notsel t sc sp seen acc h hinv hnot
    · by_cases hhost : (t.hostility = .player ∧ c.player = false) ∨
          (t.hostility = .monsters ∧ c.player = true)
      · have hnot : ¬ Selectable t sc sp h := by
          rintro ⟨c', hc', -, hh', -⟩
          rw [hact] at hc'
          cases hc'
          exact hh' hhost
        simpa [scanStep, hact, hdead, hhost] using
          scanInv_extend_notsel t sc sp seen acc h hinv hnot
      · by_cases hfr : t.frustum c.position = true
        · by_cases hocc : (sc.castRay c.position sp).any (hitBlocks t sc) = true
          · have hnot : ¬ Selectable t sc sp h := by
              rintro ⟨c', hc', -, -, -, ho'⟩
              rw [hact] at hc'
              cases hc'
              rw [hocc] at ho'
              cases ho'
            have hstep : scanStep t sc sp acc h = (acc.1, acc.2.1, 0) := by
              simp [scanStep, hact, hdead, hhost, hfr, hocc]
            rw [hstep]
            exact scanInv_extend_notsel t sc sp seen acc h hinv hnot
          · have hsel : Selectable t sc sp h :=
              ⟨c, hact, by simpa using hdead, hhost, hfr, by simpa using hocc⟩
            have hcd : candDist sc sp h = metricDistance c.position sp := by
              simp [candDist, hact]
            by_cases hlt : metricDistance c.position sp < acc.2.1
            · have hstep : scanStep t sc sp acc h =
                  (h, metricDistance c.position sp, acc.2.2) := by
                simp [scanStep, hact, hdead, hhost, hfr, hocc, hlt]
              rw [hstep]
              right
              refine ⟨List.mem_append_right _ (by simp), hsel, by simp [hcd], ?_, ?_⟩
              · rcases hinv with ⟨-, h2, -⟩ | ⟨-, -, -, h4, -⟩
                · rw [h2] at hlt
                  exact hlt
                · exact lt_trans hlt h4
              · intro h' hmem hsel'
                rcases List.mem_append.mp hmem with hm | hm
                · rcases hinv with ⟨-, h2, h3⟩ | ⟨-, -, -, -, h5⟩
                  · have hge := h3 h' hm hsel'
                    rw [h2] at hlt
                    exact le_trans (le_of_lt hlt) hge
                  · have hge := h5 h' hm hsel'
                    exact le_trans (le_of_lt hlt) hge
                · simp only [List.mem_singleton] at hm
                  subst hm
                  rw [hcd]
            · have hstep : scanStep t sc sp acc h = acc := by
                simp [scanStep, hact, hdead, hhost, hfr, hocc, hlt]
              rw [hstep]
              rcases hinv with ⟨h1, h2, h3⟩ | ⟨h1, h2, h3, h4, h5⟩
              · left
                refine ⟨h1, h2, ?_⟩
                intro h' hmem hsel'
                rcases List.mem_append.mp hmem with hm | hm
                · exact h3 h' hm hsel'
                · simp only [List.mem_singleton] at hm
                  subst hm
                  rw [hcd, ← h2]
                  exact le_of_not_lt hlt
              · right
                refine ⟨List.mem_append_left _ h1, h2, h3, h4, ?_⟩
                intro h' hmem hsel'
                rcases List.mem_append.mp hmem with hm | hm
                · exact h5 h' hm hsel'
                · simp only [List.mem_singleton] at hm
                  subst hm
                  rw [hcd]
                  exact le_of_not_lt hlt
        · have hnot : ¬ Selectable t sc sp h := by
            rintro ⟨c', hc', -, -, hf', -⟩
            rw [hact] at hc'
            cases hc'
            exact hfr hf'
          simpa [scanStep, hact, hdead, hhost, hfr] using
            scanInv_extend_notsel t sc sp seen acc h hinv hnot

/-- The whole fold preserves the invariant. -/
theorem scanFold_inv (t : Turret) (sc : TScene) (sp : Vec3) (l : List Nat) :
    ∀ (seen : List Nat) (acc : Nat × ℝ × Nat), ScanInv t sc sp seen acc →
      ScanInv t sc sp (seen ++ l) (l.foldl (scanStep t sc sp) acc) := by
  induction l with
  | nil =>
    intro seen acc hinv
    simpa using hinv
  | cons h l ih =>
    intro seen acc hinv
    rw [List.foldl_cons]
    have hnext := ih (seen ++ [h]) _ (scanStep_inv t sc sp seen acc h hinv)
    simpa [List.append_assoc] using hnext

/-- Claim C4: a scan candidate is ever selected only if it resolves to a
living character, passes the hostility filter, lies inside the current
frustum, and its ray to the turret hits no non-capsule collider other than
the turret's own; among passing candidates the one at the smallest
Euclidean distance is selected (the selected one's distance is minimal),
some candidate is selected whenever a passing one at distance below
`f32::MAX` exists, and none is selected when no candidate passes.  With
`hostility = Monsters` the selected candidate is never Player-tagged; with
`hostility = Player` only a Player-tagged one is selected. -/
theorem turret_scan_spec (t : Turret) (sc : TScene) (actors : List Nat) :
    ((scanClosest t sc actors).1 ≠ 0 →
      (scanClosest t sc actors).1 ∈ actors ∧
      Selectable t sc (sc.globalPosition t.model) (scanClosest t sc actors).1 ∧
      ∀ h ∈ actors, Selectable t sc (sc.globalPosition t.model) h →
        candDist sc (sc.globalPosition t.model) (scanClosest t sc actors).1 ≤
          candDist sc (sc.globalPosition t.model) h) ∧
    ((∀ h ∈ actors, ¬ Selectable t sc (sc.globalPosition t.model) h) →
      (scanClosest t sc actors).1 = 0) ∧
    ((∃ h, h ∈ actors ∧ Selectable t sc (sc.globalPosition t.model) h ∧
        candDist sc (sc.globalPosition t.model) h < f32Max) →
      (scanClosest t sc actors).1 ≠ 0) ∧
    (t.hostility = .monsters →
      ∀ c, tryGetCharacterRef sc (scanClosest t sc actors).1 = some c →
        c.player = false) ∧
    (t.hostility = .player →
      ∀ c, tryGetCharacterRef sc (scanClosest t sc actors).1 = some c →
        c.player = true) := by
  have hinv0 : ScanInv t sc (sc.globalPosition t.model) [] (0, f32Max, t.target) :=
    Or.inl ⟨rfl, rfl, by intro h hm; cases hm⟩
  have hfin : ScanInv t sc (sc.globalPosition t.model) actors (scanClosest t sc actors) := by
    have hfold := scanFold_inv t sc (sc.globalPosition t.model) actors [] _ hinv0
    simpa [scanClosest] using hfold
  have hzero_none : ∀ c, ¬ tryGetCharacterRef sc 0 = some c := by
    intro c hc
    simp [tryGetCharacterRef] at hc
  refine ⟨?_, ?_, ?_, ?_, ?_⟩
  · intro hne
    rcases hfin with ⟨hz, -, -⟩ | ⟨hmem, hsel, hdist, -, hmin⟩
    · exact absurd hz hne
    · refine ⟨hmem, hsel, ?_⟩
      intro h hm hs
      rw [← hdist]
      exact hmin h hm hs
  · intro hnone
    rcases hfin with ⟨hz, -, -⟩ | ⟨hmem, hsel, -, -, -⟩
    · exact hz
    · exact absurd hsel (hnone _ hmem)
  · rintro ⟨h, hm, hs, hd⟩
    rcases hfin with ⟨-, -, hall⟩ | ⟨-, hsel, -, -, -⟩
    · exact absurd hd (not_lt.mpr (hall h hm hs))
    · intro h0
      obtain ⟨c, hc, -⟩ := hsel
      rw [h0] at hc
      exact hzero_none c hc
  · intro hmons c hc
    rcases hfin with ⟨hz, -, -⟩ | ⟨-, hsel, -, -, -⟩
    · rw [hz] at hc
      exact absurd hc (hzero_none c)
    · obtain ⟨c', hc', -, hh', -⟩ := hsel
      rw [hc] at hc'
      cases hc'
      by_cases hp : c.player = true
      · exact absurd (Or.inr ⟨hmons, hp⟩) hh'
      · simpa using hp
  · intro hply c hc
    rcases hfin with ⟨hz, -, -⟩ | ⟨-, hsel, -, -, -⟩
    · rw [hz] at hc
      exact absurd hc (hzero_none c)
    · obtain ⟨c', hc', -, hh', -⟩ := hsel
      rw [hc] at hc'
      cases hc'
      by_cases hp : c.player = false
      · exact absurd (Or.inl ⟨hply, hp⟩) hh'
      · simpa using hp

/-- Witness for C4: among three candidates — one outside the frustum, one
occluded by a cuboid collider, one clear — the scan selects a candidate
(the clear one at distance 3). -/
theorem turret_scan_spec_witness :
    (scanClosest exSelTurret exSelScene [1, 2, 3]).1 ≠ 0 := by
  have hsp : exSelScene.globalPosition exSelTurret.model = ⟨0, 0, 0⟩ := rfl
  have hray : exSelScene.castRay ⟨3, 0, 0⟩ ⟨0, 0, 0⟩ = [⟨21⟩] := by
    simp only [exSelScene]
    rw [if_neg (by norm_num : ¬(3:ℝ) = 2)]
    simp
  have hocc : (exSelScene.castRay ⟨3, 0, 0⟩ ⟨0, 0, 0⟩).any
      (hitBlocks exSelTurret exSelScene) = false := by
    rw [hray]
    rfl
  have hfr : exSelTurret.frustum ⟨3, 0, 0⟩ = true := by
    simp only [exSelTurret, decide_eq_true_eq]
    norm_num
  have hsel : Selectable exSelTurret exSelScene ⟨0, 0, 0⟩ 3 := by
    refine ⟨⟨false, ⟨3, 0, 0⟩, false⟩, rfl, rfl, ?_, hfr, hocc⟩
    rintro (⟨hh, -⟩ | ⟨hh, -⟩) <;> exact Hostility.noConfusion hh
  have hdist : candDist exSelScene ⟨0, 0, 0⟩ 3 < f32Max := by
    have heq : candDist exSelScene ⟨0, 0, 0⟩ 3 = 3 := by
      have hget : tryGetCharacterRef exSelScene 3 =
          some ⟨false, ⟨3, 0, 0⟩, false⟩ := rfl
      rw [candDist, hget]
      simp only [metricDistance, Vec3.sub, Vec3.norm, Vec3.normSq]
      rw [show ((3:ℝ) - 0) ^ 2 + ((0:ℝ) - 0) ^ 2 + ((0:ℝ) - 0) ^ 2 = 3 ^ 2 by norm_num]
      rw [Real.sqrt_sq (by norm_num : (0:ℝ) ≤ 3)]
    rw [heq, f32Max]
    norm_num
  have happ := (turret_scan_spec exSelTurret exSelScene [1, 2, 3]).2.2.1
  rw [hsp] at happ
  exact happ ⟨3, by norm_num, hsel, hdist⟩

end TurretSelect

end StationIapetus
